import Mathlib

/-!
Verification of the pterosphera prototype key-matrix scanner.

The code under scrutiny is src/firmware/prototype/keymatrix/kmx.c together
with its header kmx.h.  The only operation is kmx_nextRow, whose C body is:

    void kmx_nextRow(kmx_key_reporter reporter) {
        kmx_key k;
        k.coord.inIx = 4;
        k.coord.outIx = 2;
        k.state = DOWN;
        (*reporter)(k);
    }

It reads no hardware state and invokes the reporter exactly once with the
fixed key (outIx 2, inIx 4, DOWN).  We embed it as a function from the
ambient raw-sample environment (which the body never consults) to the trace
of reporter invocations.

The specification (spec.md sections 3, 4) describes a per-cell count-based
debounce state machine and a strobe-ordered full scan.  Those are embedded
separately, with names prefixed by debounce/spec, translated from the words
of the specification, so that the behaviour demanded by the spec and the
behaviour of the code can be compared at concrete inputs.
-/

/-- The state of a physical key, from the C enum kmx_keystate in kmx.h
    (constants DOWN and UP). -/
inductive kmx_keystate where
  | DOWN : kmx_keystate
  | UP : kmx_keystate
deriving DecidableEq, Repr

/-- A coordinate within a keyboard matrix, from struct kmx_coord in kmx.h:
    outIx is the index of the driven (strobed) line, inIx the index of the
    sensed line. -/
structure kmx_coord where
  outIx : Nat
  inIx : Nat
deriving DecidableEq, Repr

/-- An individual key with its state, from struct kmx_key in kmx.h. -/
structure kmx_key where
  coord : kmx_coord
  state : kmx_keystate
deriving DecidableEq, Repr

/-- A raw-sample environment: what the hardware would answer for each cell
    on the current pass (none when the sampler cannot supply a reading).
    This models the Sampler Adapter capability of spec.md section 6. -/
def kmx_sampler : Type := kmx_coord → Option kmx_keystate

/-- The single key value built by the body of kmx_nextRow in kmx.c:
    coord.inIx = 4, coord.outIx = 2, state = DOWN. -/
def kmx_fixedKey : kmx_key := { coord := { outIx := 2, inIx := 4 }, state := kmx_keystate.DOWN }

/-- Embedding of kmx_nextRow from kmx.c as the trace of reporter
    invocations made by one call.  The C body constructs kmx_fixedKey and
    calls the reporter once with it; it takes no input from the matrix, so
    the sampler argument (the ambient hardware state during the call) is
    never consulted. -/
def kmx_nextRow (_sampler : kmx_sampler) : List kmx_key :=
  [kmx_fixedKey]

/-- The reporter-invocation trace of a sequence of kmx_nextRow calls, the
    hardware state being allowed to differ from call to call (one sampler
    per call). -/
def kmx_run (samplers : List kmx_sampler) : List kmx_key :=
  match samplers with
  | [] => []
  | s :: rest => kmx_nextRow s ++ kmx_run rest

/-- A sampler that reads every cell as the given constant state. -/
def constSampler (st : kmx_keystate) : kmx_sampler := fun _ => some st

/-- A sampler for which every read fails (no cell yields a sample). -/
def emptySampler : kmx_sampler := fun _ => none

/-- Modelled from the spec: the per-cell debounce record CellDebounceState
    of spec.md section 3 (the lastSampleTime field is omitted: the
    algorithm of section 4.2 is count-based and never reads or writes
    it). -/
structure CellDebounceState where
  confirmedState : kmx_keystate
  candidateState : kmx_keystate
  consecutiveMatches : Nat
deriving DecidableEq, Repr

/-- Modelled from the spec: the initial per-cell record of section 4.2,
    confirmed Up, candidate Up, zero consecutive matches. -/
def initCell : CellDebounceState :=
  { confirmedState := kmx_keystate.UP, candidateState := kmx_keystate.UP, consecutiveMatches := 0 }

/-- Modelled from the spec: steps 2 and 3 of the section 4.2 algorithm for
    one proposed state.  Returns the updated record and, when a transition
    is confirmed, the newly confirmed state to be emitted. -/
def debounceStep (T : Nat) (c : CellDebounceState) (proposed : kmx_keystate) :
    CellDebounceState × Option kmx_keystate :=
  let c1 :=
    if proposed = c.candidateState then
      { c with consecutiveMatches := c.consecutiveMatches + 1 }
    else
      { c with candidateState := proposed, consecutiveMatches := 1 }
  if T ≤ c1.consecutiveMatches ∧ c1.candidateState ≠ c1.confirmedState then
    ({ c1 with confirmedState := c1.candidateState }, some c1.candidateState)
  else
    (c1, none)

/-- Modelled from the spec: the section 4.2 machine run over a list of
    per-pass samples for one cell; a missing sample (none) freezes the
    record for that pass (section 4.2 edge case).  Returns the final record
    and the list of emitted confirmed states, in order. -/
def debounceRun (T : Nat) (c : CellDebounceState) (samples : List (Option kmx_keystate)) :
    CellDebounceState × List kmx_keystate :=
  match samples with
  | [] => (c, [])
  | none :: rest => debounceRun T c rest
  | some p :: rest =>
    let r := debounceStep T c p
    let rec' := debounceRun T r.1 rest
    (rec'.1, r.2.toList ++ rec'.2)

/-- Modelled from the spec: scanRow of section 4.1.  Strobes line outIx and,
    for each inIx below IN_LINES in increasing order, feeds the sample for
    (outIx, inIx) into the debounce update for that cell, emitting a
    KeyEvent with exactly that coordinate whenever a transition is
    confirmed.  Returns the updated table and the events in emission
    order. -/
def specScanRow (T IN_LINES : Nat) (sampler : kmx_sampler) (outIx : Nat)
    (tbl : kmx_coord → CellDebounceState) :
    (kmx_coord → CellDebounceState) × List kmx_key :=
  (List.range IN_LINES).foldl
    (fun acc inIx =>
      let coord : kmx_coord := { outIx := outIx, inIx := inIx }
      match sampler coord with
      | none => acc
      | some proposed =>
        let r := debounceStep T (acc.1 coord) proposed
        (fun x => if x = coord then r.1 else acc.1 x,
         acc.2 ++ (r.2.map (fun st => ({ coord := coord, state := st } : kmx_key))).toList))
    (tbl, [])

/-- Modelled from the spec: scanFull of section 4.1, calling specScanRow for
    every outIx below OUT_LINES in increasing order, once. -/
def specScanFull (T OUT_LINES IN_LINES : Nat) (sampler : kmx_sampler)
    (tbl : kmx_coord → CellDebounceState) :
    (kmx_coord → CellDebounceState) × List kmx_key :=
  (List.range OUT_LINES).foldl
    (fun acc outIx =>
      let r := specScanRow T IN_LINES sampler outIx acc.1
      (r.1, acc.2 ++ r.2))
    (tbl, [])

/-- The debounce table with every cell in its initial state. -/
def initTable : kmx_coord → CellDebounceState := fun _ => initCell

/-- A mid-debounce record: still confirmed Up, candidate Down with 2
    consecutive matches accumulated (one short of a threshold of 3). -/
def midDebounceCell : CellDebounceState :=
  { confirmedState := kmx_keystate.UP, candidateState := kmx_keystate.DOWN,
    consecutiveMatches := 2 }

/-- A 1 by 1 sampler: only cell (0, 0) yields a sample, and it reads Down. -/
def oneCellSampler : kmx_sampler :=
  fun c => if c = { outIx := 0, inIx := 0 } then some kmx_keystate.DOWN else none

theorem kmx_run_cons (s : kmx_sampler) (ss : List kmx_sampler) :
    kmx_run (s :: ss) = kmx_fixedKey :: kmx_run ss := rfl

theorem kmx_run_replicate (ss : List kmx_sampler) :
    kmx_run ss = List.replicate ss.length kmx_fixedKey := by
  induction ss with
  | nil => rfl
  | cons s rest ih => simp [kmx_run_cons, ih, List.replicate_succ]

/-- C1.  Debounce convergence is violated by the code.  Spec side: with
    threshold 3, a cell starting Up that samples Down on 3 consecutive
    passes emits exactly one Down event and ends with confirmed state Down.
    Code side: over the same 3 passes of constant Down samples, kmx_nextRow
    emits no event at all for the sampled cell (0, 0); its only output is
    the hardcoded key at (2, 4). -/
theorem C1_debounce_convergence_violated :
    (debounceRun 3 initCell [some kmx_keystate.DOWN, some kmx_keystate.DOWN,
        some kmx_keystate.DOWN]).2 = [kmx_keystate.DOWN]
    ∧ (debounceRun 3 initCell [some kmx_keystate.DOWN, some kmx_keystate.DOWN,
        some kmx_keystate.DOWN]).1.confirmedState = kmx_keystate.DOWN
    ∧ (kmx_run [constSampler kmx_keystate.DOWN, constSampler kmx_keystate.DOWN,
        constSampler kmx_keystate.DOWN]).countP
        (fun e => decide (e.coord = { outIx := 0, inIx := 0 })) = 0 := by
  decide

/-- C2.  The code invokes the Reporter for a cell whose confirmed state did
    not change.  Spec side: a pass in which no cell yields a sample changes
    no confirmed state, so the Reporter is invoked zero times.  Code side:
    kmx_nextRow under the same empty sampler still invokes the reporter
    once, with the hardcoded key. -/
theorem C2_report_without_state_change :
    (specScanFull 3 2 2 emptySampler initTable).2 = []
    ∧ kmx_nextRow emptySampler = [kmx_fixedKey] := by
  decide

/-- C3.  Bounce rejection is violated by the code.  Spec side: with
    threshold 2, samples toggling every pass (Down, Up, Down, Up) never
    reach 2 consecutive matches, so no event is emitted and the confirmed
    state stays Up.  Code side: over the same 4 passes kmx_nextRow emits an
    event on every single call. -/
theorem C3_bounce_rejection_violated :
    (debounceRun 2 initCell [some kmx_keystate.DOWN, some kmx_keystate.UP,
        some kmx_keystate.DOWN, some kmx_keystate.UP]).2 = []
    ∧ (debounceRun 2 initCell [some kmx_keystate.DOWN, some kmx_keystate.UP,
        some kmx_keystate.DOWN, some kmx_keystate.UP]).1.confirmedState = kmx_keystate.UP
    ∧ kmx_run [constSampler kmx_keystate.DOWN, constSampler kmx_keystate.UP,
        constSampler kmx_keystate.DOWN, constSampler kmx_keystate.UP] =
        [kmx_fixedKey, kmx_fixedKey, kmx_fixedKey, kmx_fixedKey] := by
  decide

/-- C4.  Idempotence of stable state is violated by the code.  Spec side:
    once a cell has settled (confirmed Down after one pass at threshold 1),
    two further passes sampling the same Down state emit nothing.  Code
    side: three consecutive calls under constant Down samples re-emit the
    hardcoded event on every call. -/
theorem C4_idempotence_violated :
    (debounceRun 1 (debounceRun 1 initCell [some kmx_keystate.DOWN]).1
        [some kmx_keystate.DOWN, some kmx_keystate.DOWN]).2 = []
    ∧ kmx_run [constSampler kmx_keystate.DOWN, constSampler kmx_keystate.DOWN,
        constSampler kmx_keystate.DOWN] = [kmx_fixedKey, kmx_fixedKey, kmx_fixedKey] := by
  decide

/-- C5.  Coordinate fidelity is violated by the code.  Spec side: scanning a
    1 by 1 matrix in which only cell (0, 0) is sampled emits an event whose
    coordinate is exactly (0, 0).  Code side: under that same sampler,
    kmx_nextRow emits its event at coordinate (2, 4), a cell for which the
    sampler supplies no sample at all. -/
theorem C5_coordinate_fidelity_violated :
    (specScanRow 1 1 oneCellSampler 0 initTable).2 =
      [{ coord := { outIx := 0, inIx := 0 }, state := kmx_keystate.DOWN }]
    ∧ kmx_nextRow oneCellSampler =
      [{ coord := { outIx := 2, inIx := 4 }, state := kmx_keystate.DOWN }]
    ∧ oneCellSampler { outIx := 2, inIx := 4 } = none := by
  decide

/-- C6.  Missing-sample resilience is violated by the code.  Spec side: a
    pass with a missing sample leaves a mid-debounce record (candidate Down
    with 2 matches pending, threshold 3) completely unchanged and emits
    nothing.  Code side: on a pass in which every sample is missing,
    kmx_nextRow still emits exactly one event for cell (2, 4). -/
theorem C6_missing_sample_resilience_violated :
    debounceRun 3 midDebounceCell [none] = (midDebounceCell, [])
    ∧ (kmx_nextRow emptySampler).countP
        (fun e => decide (e.coord = { outIx := 2, inIx := 4 })) = 1 := by
  decide

/-- C7.  Full-scan sequencing is violated by the code.  Spec side: on a 2 by
    2 matrix with threshold 1 and all four cells sampled Down, one full scan
    emits exactly 4 events in strobe order (0,0), (0,1), (1,0), (1,1).
    Code side: a full scan realized as one kmx_nextRow call per output line
    (2 calls) emits 2 events, both at the out-of-matrix coordinate
    (2, 4). -/
theorem C7_scanFull_sequencing_violated :
    (specScanFull 1 2 2 (constSampler kmx_keystate.DOWN) initTable).2 =
      [{ coord := { outIx := 0, inIx := 0 }, state := kmx_keystate.DOWN },
       { coord := { outIx := 0, inIx := 1 }, state := kmx_keystate.DOWN },
       { coord := { outIx := 1, inIx := 0 }, state := kmx_keystate.DOWN },
       { coord := { outIx := 1, inIx := 1 }, state := kmx_keystate.DOWN }]
    ∧ kmx_run [constSampler kmx_keystate.DOWN, constSampler kmx_keystate.DOWN] =
      [kmx_fixedKey, kmx_fixedKey] := by
  decide

/-- C8.  Every call of kmx_nextRow invokes the reporter exactly once, always
    with the fixed key (outIx 2, inIx 4, DOWN), whatever the ambient sample
    state; across any sequence of calls the trace is one such invocation
    per call, independent of configuration and of the number of prior
    calls. -/
theorem C8_fixed_key_always :
    (∀ sampler : kmx_sampler,
      kmx_nextRow sampler =
        [{ coord := { outIx := 2, inIx := 4 }, state := kmx_keystate.DOWN }])
    ∧ ∀ samplers : List kmx_sampler,
        kmx_run samplers = List.replicate samplers.length kmx_fixedKey :=
  ⟨fun _ => rfl, kmx_run_replicate⟩

/-- C9.  Across any sequence of kmx_nextRow calls, the reporter is never
    invoked with a key whose state is UP: every reported key has state
    DOWN, so the program never reports a key release. -/
theorem C9_never_reports_up (samplers : List kmx_sampler) (e : kmx_key)
    (h : e ∈ kmx_run samplers) : e.state ≠ kmx_keystate.UP := by
  rw [kmx_run_replicate] at h
  have he : e = kmx_fixedKey := List.eq_of_mem_replicate h
  subst he
  decide

/-- Witness for C9 at a concrete run of one call with the empty sampler. -/
theorem C9_witness :
    kmx_fixedKey ∈ kmx_run [emptySampler] ∧ kmx_fixedKey.state ≠ kmx_keystate.UP :=
  ⟨by decide, C9_never_reports_up [emptySampler] kmx_fixedKey (by decide)⟩

/-- C10.  Noninterference from hardware input: the trace of reporter
    invocations of a kmx_nextRow call does not depend on the raw electrical
    state of the matrix, and two runs of equally many calls produce
    identical traces whatever the hardware did in each. -/
theorem C10_noninterference :
    (∀ s₁ s₂ : kmx_sampler, kmx_nextRow s₁ = kmx_nextRow s₂)
    ∧ ∀ ss₁ ss₂ : List kmx_sampler, ss₁.length = ss₂.length →
        kmx_run ss₁ = kmx_run ss₂ := by
  refine ⟨fun _ _ => rfl, fun ss₁ ss₂ h => ?_⟩
  rw [kmx_run_replicate, kmx_run_replicate, h]

/-- Witness for C10: a run over a pressed matrix and a run over a dead
    matrix, of one call each, produce the same trace. -/
theorem C10_witness :
    [constSampler kmx_keystate.DOWN].length = [emptySampler].length
    ∧ kmx_run [constSampler kmx_keystate.DOWN] = kmx_run [emptySampler] :=
  ⟨rfl, C10_noninterference.2 [constSampler kmx_keystate.DOWN] [emptySampler] rfl⟩
